import Mathlib

/-!
Verification of the augmentation engine of `torchaudio_contrib`
(`torchaudio_contrib/augmentation.py`): phase-vocoder time stretch,
randomized axis masking, and additive-noise injection.

Tensors are modelled as 4-dimensional arrays [batch, channel, frequency, time]
backed by total functions together with explicit extents; rational numbers
stand for the real-valued entries of masking/noise tensors (the code performs
only field operations and truncation there), and real/complex numbers are used
for the phase vocoder.  Random draws (`torch.rand`, `torch.normal`) are passed
in as explicit oracle arguments: `torch.rand` draws are values in `[0, 1)`,
and a `torch.normal(mean, std)` sample is modelled as `mean + std * z` with
`z` a standard-normal draw supplied by the oracle.
-/

set_option autoImplicit false

namespace TorchaudioContrib

/-- Error outcomes of the augmentation operations.  `invalidAxis` is the
`ValueError('Only Frequency and Time masking is supported')` raised by the
masking functions; `dimOutOfRange` is the `IndexError` raised by
`Tensor.size(axis)` when `axis` does not refer to one of the four dimensions;
`runtimeError` is the error `torch.linspace` raises on a negative step count;
`invalidParameter` and `shapeMismatch` are the remaining cases of the
specification's error taxonomy. -/
inductive AugError where
  | invalidAxis
  | invalidParameter
  | shapeMismatch
  | dimOutOfRange
  | runtimeError
  deriving DecidableEq, Repr

/-- A real-valued 4-D tensor [batch, channel, frequency, time]: explicit
extents plus a total function giving the entries (indices beyond the extents
are phantom). -/
structure Tensor4 where
  B : ℕ
  C : ℕ
  F : ℕ
  T : ℕ
  data : ℕ → ℕ → ℕ → ℕ → ℚ

/-- Python/torch `Tensor.size(axis)` with negative-index support: valid axes
for a 4-D tensor are `-4 ≤ axis < 4`; anything else raises an `IndexError`
(dimension out of range). -/
def Tensor4.size (s : Tensor4) (axis : ℤ) : Except AugError ℤ :=
  if -4 ≤ axis ∧ axis < 4 then
    let i := if axis < 0 then axis + 4 else axis
    .ok (if i = 0 then (s.B : ℤ) else if i = 1 then (s.C : ℤ)
         else if i = 2 then (s.F : ℤ) else (s.T : ℤ))
  else .error .dimOutOfRange

/-- Torch `.long()` conversion of a float scalar: truncation toward zero. -/
def truncLong (x : ℚ) : ℤ :=
  if 0 ≤ x then ⌊x⌋ else ⌈x⌉

/-- The scalar `value = torch.rand(...) * max_value` computed by both masking
functions, for one uniform draw `u1 ∈ [0, 1)`. -/
def maskValue (u1 max_value : ℚ) : ℚ := u1 * max_value

/-- The scalar `min_value = torch.rand(...) * (spect.size(axis) - value)`
computed by both masking functions, for one uniform draw `u2 ∈ [0, 1)`. -/
def maskMinValue (u2 L v : ℚ) : ℚ := u2 * (L - v)

/-- The integer mask span `value.long()` used by both masking functions. -/
def maskSpan (u1 max_value : ℚ) : ℤ := truncLong (maskValue u1 max_value)

/-- The integer mask start `min_value.long()` used by both masking
functions (`L` is the length of the masked axis). -/
def maskStart (u2 L u1 max_value : ℚ) : ℤ :=
  truncLong (maskMinValue u2 L (maskValue u1 max_value))

/-- Length of the masked axis as a rational, for `axis ∈ {2, 3}`. -/
def axisLenQ (s : Tensor4) (axis : ℤ) : ℚ :=
  if axis = 2 then (s.F : ℚ) else (s.T : ℚ)

/-- Torch `Tensor.transpose(2, 3)` on a 4-D tensor. -/
def Tensor4.transpose23 (s : Tensor4) : Tensor4 :=
  ⟨s.B, s.C, s.T, s.F, fun b c t f => s.data b c f t⟩

/-- Torch `Tensor.transpose(2, axis)` for `axis ∈ {2, 3}`: the identity for
`axis = 2` and the (2,3) swap for `axis = 3`. -/
def transposeTo2 (axis : ℤ) (s : Tensor4) : Tensor4 :=
  if axis = 3 then s.transpose23 else s

/-- The boolean-mask assignment `spect[(mask >= mask_start) & (mask < mask_end)]
= mask_value` performed by `mask_along_axis` after transposing the target axis
to position 2: `mask` is `arange(0, L).repeat(B, C, 1)` with `L` the size of
dimension 2, so entry `(b, c, i, j)` inside the tensor extents is overwritten
exactly when `ms b c ≤ i < me b c`. -/
def maskedFill (s : Tensor4) (ms me : ℕ → ℕ → ℤ) (mask_value : ℚ) : Tensor4 :=
  ⟨s.B, s.C, s.F, s.T, fun b c i j =>
    if b < s.B ∧ c < s.C ∧ i < s.F ∧ j < s.T ∧ ms b c ≤ (i : ℤ) ∧ (i : ℤ) < me b c
    then mask_value else s.data b c i j⟩

/-- Computation performed by `mask_along_axis` once the axis has been
validated: per-(batch, channel) uniform draws `u1` (for `value`) and `u2`
(for `min_value`), truncated to the integer bounds `mask_start`/`mask_end`,
then the boolean-mask overwrite on the tensor transposed so the target axis
is at position 2, transposed back. -/
def maskAlongAxisCore (spect : Tensor4) (max_value mask_value : ℚ) (axis : ℤ)
    (u1 u2 : ℕ → ℕ → ℚ) : Tensor4 :=
  let L : ℚ := axisLenQ spect axis
  transposeTo2 axis
    (maskedFill (transposeTo2 axis spect)
      (fun b c => maskStart (u2 b c) L (u1 b c) max_value)
      (fun b c => maskStart (u2 b c) L (u1 b c) max_value + maskSpan (u1 b c) max_value)
      mask_value)

/-- `mask_along_axis(spect, max_value, mask_value, axis)` with the two uniform
draw matrices passed explicitly: raises `ValueError` (InvalidAxis) unless
`axis` is 2 or 3, else masks each (batch, channel) slice independently. -/
def mask_along_axis (spect : Tensor4) (max_value mask_value : ℚ) (axis : ℤ)
    (u1 u2 : ℕ → ℕ → ℚ) : Except AugError Tensor4 :=
  if axis = 2 ∨ axis = 3 then
    .ok (maskAlongAxisCore spect max_value mask_value axis u1 u2)
  else .error .invalidAxis

/-- Python slice-index normalization for a dimension of length `L`: a negative
index counts from the end and the result is clamped into `[0, L]`. -/
def sliceIdx (L : ℕ) (x : ℤ) : ℤ :=
  if x < 0 then max ((L : ℤ) + x) 0 else min x (L : ℤ)

/-- Whether index `i` of a dimension of length `L` falls inside the Python
slice `a:b`. -/
def inSliceRegion (L : ℕ) (a b i : ℤ) : Prop :=
  sliceIdx L a ≤ i ∧ i < sliceIdx L b

instance (L : ℕ) (a b i : ℤ) : Decidable (inSliceRegion L a b i) :=
  inferInstanceAs (Decidable (_ ∧ _))

/-- The slice assignment `spect[:, :, a:b] = mask_value` (all batches and
channels, frequency rows `a:b`, every time frame). -/
def sliceFill2 (s : Tensor4) (a b : ℤ) (mask_value : ℚ) : Tensor4 :=
  ⟨s.B, s.C, s.F, s.T, fun bi c f t =>
    if bi < s.B ∧ c < s.C ∧ t < s.T ∧ inSliceRegion s.F a b (f : ℤ)
    then mask_value else s.data bi c f t⟩

/-- The slice assignment `spect[:, :, :, a:b] = mask_value` (all batches,
channels and frequency rows, time frames `a:b`). -/
def sliceFill3 (s : Tensor4) (a b : ℤ) (mask_value : ℚ) : Tensor4 :=
  ⟨s.B, s.C, s.F, s.T, fun bi c f t =>
    if bi < s.B ∧ c < s.C ∧ f < s.F ∧ inSliceRegion s.T a b (t : ℤ)
    then mask_value else s.data bi c f t⟩

/-- `mask_along_axis_batch(spect, max_value, mask_value, axis)` with the two
scalar uniform draws passed explicitly.  Mirrors the source order of
operations: the draws multiply `spect.size(axis)` before the axis dispatch, so
an axis outside `[-4, 3]` raises the `IndexError` of `size` and never reaches
the `ValueError` branch. -/
def mask_along_axis_batch (spect : Tensor4) (max_value mask_value : ℚ)
    (axis : ℤ) (u1 u2 : ℚ) : Except AugError Tensor4 :=
  match spect.size axis with
  | .error e => .error e
  | .ok L =>
    let ms : ℤ := maskStart u2 (L : ℚ) u1 max_value
    let me : ℤ := ms + maskSpan u1 max_value
    if axis = 2 then .ok (sliceFill2 spect ms me mask_value)
    else if axis = 3 then .ok (sliceFill3 spect ms me mask_value)
    else .error .invalidAxis

/-- State of the `_AxisMasking` module: the stored `max_value`, the stored
`axis`, and which masking function was selected at construction
(`across_batch`). -/
structure AxisMaskingState where
  max_value : ℚ
  axis : ℤ
  across_batch : Bool

/-- `_AxisMasking.__init__(max_value, axis, across_batch)`. -/
def AxisMasking.init (max_value : ℚ) (axis : ℤ) (across_batch : Bool) :
    AxisMaskingState :=
  ⟨max_value, axis, across_batch⟩

/-- `_AxisMasking.forward(spect, mask_value)`: dispatches to the masking
function chosen at construction, passing the stored `max_value` and `axis`.
`u1 u2` are the per-(batch, channel) draw matrices consumed by
`mask_along_axis`, `v1 v2` the scalar draws consumed by
`mask_along_axis_batch`. -/
def AxisMasking.forward (m : AxisMaskingState) (spect : Tensor4)
    (mask_value : ℚ) (u1 u2 : ℕ → ℕ → ℚ) (v1 v2 : ℚ) : Except AugError Tensor4 :=
  if m.across_batch then
    mask_along_axis_batch spect m.max_value mask_value m.axis v1 v2
  else
    mask_along_axis spect m.max_value mask_value m.axis u1 u2

/-- `FrequencyMasking.__init__(max_freq, across_batch)`: axis fixed to 2. -/
def FrequencyMasking.init (max_freq : ℚ) (across_batch : Bool) : AxisMaskingState :=
  AxisMasking.init max_freq 2 across_batch

/-- `TimeMasking.__init__(max_time, across_batch)`: axis fixed to 3. -/
def TimeMasking.init (max_time : ℚ) (across_batch : Bool) : AxisMaskingState :=
  AxisMasking.init max_time 3 across_batch

/-- State of the `AdditiveNoise` module: the stored scale, kept in expanded
(broadcast) form over the 4-D index space, as produced by
`torch.as_tensor(scale)` followed by `.expand(spect.shape)`. -/
structure NoiseState where
  scale : ℕ → ℕ → ℕ → ℕ → ℚ

/-- `AdditiveNoise.__init__(scale)`: stores the scale; performs no
validation and cannot fail. -/
def AdditiveNoise.init (scale : ℕ → ℕ → ℕ → ℕ → ℚ) : Except AugError NoiseState :=
  .ok ⟨scale⟩

/-- A `torch.normal(mean, std)` sample, modelled as `mean + std * z` where `z`
is the standard-normal draw supplied by the randomness oracle. -/
def normalSample (mean std z : ℚ) : ℚ := mean + std * z

/-- `AdditiveNoise.forward(spect, scale)`: uses the per-call scale when one is
given, else the stored default; draws elementwise noise
`torch.normal(loc.expand(shape), scale.expand(shape))` (with `loc = 0`) and
returns `spect + noise` as a fresh tensor, leaving `spect` untouched. -/
def AdditiveNoise.forward (st : NoiseState) (spect : Tensor4)
    (scale : Option (ℕ → ℕ → ℕ → ℕ → ℚ)) (z : ℕ → ℕ → ℕ → ℕ → ℚ) : Tensor4 :=
  let sc := scale.getD st.scale
  ⟨spect.B, spect.C, spect.F, spect.T, fun b c f t =>
    spect.data b c f t + normalSample 0 (sc b c f t) (z b c f t)⟩

/-- `torch.linspace(a, b, steps)`: `steps` evenly spaced points from `a` to
`b`; a single step yields `[a]`, otherwise point `k` is
`a + k * (b - a) / (steps - 1)`. -/
noncomputable def linspace (a b : ℝ) (steps : ℕ) : List ℝ :=
  (List.range steps).map (fun (k : ℕ) =>
    if steps = 1 then a else a + (k : ℝ) * (b - a) / ((steps : ℝ) - 1))

/-- The phase-advance table `torch.linspace(0, math.pi * hop_len, num_bins)`
built by `StretchSpecTime.__init__`. -/
noncomputable def stretchPhiTable (hop_len : ℤ) (num_bins : ℕ) : List ℝ :=
  linspace 0 (Real.pi * (hop_len : ℝ)) num_bins

/-- State of the `StretchSpecTime` module: the stored default rate and the
registered `phi_advance` buffer. -/
structure StretchState where
  rate : ℝ
  phi_advance : List ℝ

/-- `StretchSpecTime.__init__(rate, hop_len, num_bins)`: stores the rate as
given (no validation) and builds the phase-advance buffer; the only failure is
the runtime error `torch.linspace` raises when the step count is negative. -/
noncomputable def StretchSpecTime.init (rate : ℝ) (hop_len num_bins : ℤ) :
    Except AugError StretchState :=
  if num_bins < 0 then .error .runtimeError
  else .ok ⟨rate, stretchPhiTable hop_len num_bins.toNat⟩

/-- Modelled from the spec: the `phase_vocoder` function lives in
`torchaudio_contrib/functional.py`, which is not under `src/`; the following
definitions (`outLen` through `phase_vocoder`) transcribe the algorithm of
spec section 4.1.  Output frame `i` samples the input at the fractional time
position `t_i = i * rate`. -/
noncomputable def pvTimePos (rate : ℝ) (i : ℕ) : ℝ := (i : ℝ) * rate

/-- Modelled from the spec (section 4.1, `phase_vocoder` missing from `src/`):
the lower integer input frame `lo = floor(t_i)` contributing to output frame
`i`. -/
noncomputable def pvLo (rate : ℝ) (i : ℕ) : ℕ := (⌊pvTimePos rate i⌋).toNat

/-- Modelled from the spec (section 4.1, `phase_vocoder` missing from `src/`):
the interpolation weight `alpha = t_i - floor(t_i)`. -/
noncomputable def pvAlpha (rate : ℝ) (i : ℕ) : ℝ :=
  pvTimePos rate i - ⌊pvTimePos rate i⌋

/-- Modelled from the spec (section 4.1): input frames beyond the last valid
frame are treated as zero-padded.  `X` is the complex time series of one
(batch, channel, frequency-bin) triple and `T` its frame count. -/
def xpad (X : ℕ → ℂ) (T : ℕ) (n : ℕ) : ℂ := if n < T then X n else 0

/-- Modelled from the spec (section 4.1, `phase_vocoder` missing from `src/`):
magnitude of output frame `i` by linear interpolation,
`(1 - alpha) * |X[lo]| + alpha * |X[hi]|` with `hi = lo + 1`. -/
noncomputable def pvMag (X : ℕ → ℂ) (T : ℕ) (rate : ℝ) (i : ℕ) : ℝ :=
  (1 - pvAlpha rate i) * Complex.abs (xpad X T (pvLo rate i)) +
    pvAlpha rate i * Complex.abs (xpad X T (pvLo rate i + 1))

/-- Modelled from the spec (section 4.1): wrap a phase residual into
`(-pi, pi]` by subtracting the nearest multiple of `2 * pi`. -/
noncomputable def wrapPhase (x : ℝ) : ℝ :=
  x - 2 * Real.pi * (⌈x / (2 * Real.pi) - 1 / 2⌉ : ℤ)

/-- Modelled from the spec (section 4.1, `phase_vocoder` missing from `src/`):
the phase increment accumulated between output frames `i` and `i + 1` — the
observed phase difference of the two input frames forming output frame `i`,
minus the bin's expected advance `adv`, wrapped into `(-pi, pi]`, plus the
expected advance again (the time-step fraction is 1: consecutive output frames
are one hop apart, the spacing the expected advance is stated for). -/
noncomputable def pvStep (X : ℕ → ℂ) (T : ℕ) (rate : ℝ) (adv : ℝ) (i : ℕ) : ℝ :=
  wrapPhase ((xpad X T (pvLo rate i + 1)).arg - (xpad X T (pvLo rate i)).arg - adv) + adv

/-- Modelled from the spec (section 4.1, `phase_vocoder` missing from `src/`):
the accumulated phase, initialized to the phase of the first input frame and
advanced by `pvStep` between consecutive output frames. -/
noncomputable def pvPhase (X : ℕ → ℂ) (T : ℕ) (rate : ℝ) (adv : ℝ) : ℕ → ℝ
  | 0 => (xpad X T 0).arg
  | i + 1 => pvPhase X T rate adv i + pvStep X T rate adv i

/-- Modelled from the spec (section 4.1, `phase_vocoder` missing from `src/`):
output frame `i` of one bin's series, rebuilt from the interpolated magnitude
and the accumulated phase. -/
noncomputable def pvOut (X : ℕ → ℂ) (T : ℕ) (rate : ℝ) (adv : ℝ) (i : ℕ) : ℂ :=
  (pvMag X T rate i : ℝ) * Complex.exp ((pvPhase X T rate adv i : ℝ) * Complex.I)

/-- Modelled from the spec (section 4.1): the stretched spectrogram has
`ceil(T / rate)` frames. -/
noncomputable def outLen (rate : ℝ) (T : ℕ) : ℕ := ⌈(T : ℝ) / rate⌉₊

/-- A complex-valued 4-D spectrogram [batch, channel, frequency, time]. -/
structure CSpect4 where
  B : ℕ
  C : ℕ
  F : ℕ
  T : ℕ
  data : ℕ → ℕ → ℕ → ℕ → ℂ

/-- Modelled from the spec (section 4.1, `phase_vocoder` missing from `src/`):
the full stretch, applied per (batch, channel, frequency-bin) series with that
bin's entry of the phase-advance table. -/
noncomputable def phase_vocoder (spect : CSpect4) (rate : ℝ) (phi : List ℝ) : CSpect4 :=
  ⟨spect.B, spect.C, spect.F, outLen rate spect.T,
    fun b c f i => pvOut (fun n => spect.data b c f n) spect.T rate (phi.getD f 0) i⟩

/-- `StretchSpecTime.forward(spect, rate)`: uses the per-call rate when one is
given, else the stored default, and runs the phase vocoder with the stored
phase-advance buffer. -/
noncomputable def StretchSpecTime.forward (s : StretchState) (spect : CSpect4)
    (rate : Option ℝ) : CSpect4 :=
  phase_vocoder spect (rate.getD s.rate) s.phi_advance

/-- Whether an operation returned normally (no exception was raised). -/
def isOk {α : Type} : Except AugError α → Bool
  | .ok _ => true
  | .error _ => false

/-! ### Helper lemmas -/

lemma ne_error_of_isOk {α : Type} {e : Except AugError α} (h : isOk e = true)
    (x : AugError) : e ≠ .error x := by
  intro he
  rw [he] at h
  simp [isOk] at h

lemma size_two (s : Tensor4) : s.size 2 = .ok (s.F : ℤ) := by
  norm_num [Tensor4.size]

lemma size_three (s : Tensor4) : s.size 3 = .ok (s.T : ℤ) := by
  norm_num [Tensor4.size]

lemma batch_two (spect : Tensor4) (M mv u1 u2 : ℚ) :
    mask_along_axis_batch spect M mv 2 u1 u2 =
      .ok (sliceFill2 spect (maskStart u2 (spect.F : ℚ) u1 M)
        (maskStart u2 (spect.F : ℚ) u1 M + maskSpan u1 M) mv) := by
  simp [mask_along_axis_batch, size_two]

lemma batch_three (spect : Tensor4) (M mv u1 u2 : ℚ) :
    mask_along_axis_batch spect M mv 3 u1 u2 =
      .ok (sliceFill3 spect (maskStart u2 (spect.T : ℚ) u1 M)
        (maskStart u2 (spect.T : ℚ) u1 M + maskSpan u1 M) mv) := by
  simp [mask_along_axis_batch, size_three]

lemma truncLong_of_nonneg {x : ℚ} (h : 0 ≤ x) : truncLong x = ⌊x⌋ := if_pos h

lemma truncLong_nonneg {x : ℚ} (h : 0 ≤ x) : 0 ≤ truncLong x := by
  rw [truncLong_of_nonneg h]
  exact Int.floor_nonneg.mpr h

lemma truncLong_le {x : ℚ} (h : 0 ≤ x) : (truncLong x : ℚ) ≤ x := by
  rw [truncLong_of_nonneg h]
  exact Int.floor_le x

lemma truncLong_lt {x : ℚ} : x - 1 < (truncLong x : ℚ) := by
  unfold truncLong
  split
  · exact Int.sub_one_lt_floor x
  · have h := Int.le_ceil x
    linarith

/-! ### Concrete inputs used by witnesses and counterexamples -/

/-- A 1 × 1 × 10 × 10 all-ones real spectrogram. -/
def tensorOnes : Tensor4 := ⟨1, 1, 10, 10, fun _ _ _ _ => 1⟩

/-- A 2 × 1 × 4 × 4 real spectrogram whose entries are all 5. -/
def tensorFives : Tensor4 := ⟨2, 1, 4, 4, fun _ _ _ _ => 5⟩

/-! ### Claims -/

/-- C5: the claim says constructing a component with non-positive rate,
hop_len, num_bins, or scale fails eagerly with InvalidParameter.  The code
performs no such validation: construction succeeds with a negative rate, a
negative hop_len, and a negative scale. -/
theorem param_validation_cx :
    isOk (StretchSpecTime.init (-1) 512 1025) = true
  ∧ StretchSpecTime.init (-1) 512 1025 ≠ .error .invalidParameter
  ∧ isOk (StretchSpecTime.init 1 (-7) 1025) = true
  ∧ isOk (AdditiveNoise.init (fun _ _ _ _ => -1)) = true
  ∧ AdditiveNoise.init (fun _ _ _ _ => -1) ≠ .error .invalidParameter := by
  refine ⟨rfl, ?_, rfl, rfl, ?_⟩
  · apply ne_error_of_isOk
    rfl
  · apply ne_error_of_isOk
    rfl

/-- C5 (amended): neither constructor validates its parameters.
`StretchSpecTime.__init__` succeeds for every rate and hop_len and every
non-negative num_bins, and fails only for a negative num_bins — with the
runtime error of `torch.linspace`, not InvalidParameter; `AdditiveNoise`
construction always succeeds, whatever the scale. -/
theorem param_no_validation :
    (∀ (rate : ℝ) (hop num : ℤ), 0 ≤ num →
        isOk (StretchSpecTime.init rate hop num) = true)
  ∧ (∀ (rate : ℝ) (hop num : ℤ), num < 0 →
        StretchSpecTime.init rate hop num = .error .runtimeError)
  ∧ (∀ scale, isOk (AdditiveNoise.init scale) = true) := by
  refine ⟨?_, ?_, fun _ => rfl⟩
  · intro rate hop num h
    simp [StretchSpecTime.init, not_lt.mpr h, isOk]
  · intro rate hop num h
    simp [StretchSpecTime.init, h]

/-- Witness for C5 (amended) at concrete parameters. -/
theorem param_no_validation_w :
    (0 : ℤ) ≤ 1025 ∧ isOk (StretchSpecTime.init (-2) (-3) 1025) = true
  ∧ (-1 : ℤ) < 0 ∧ StretchSpecTime.init 1 512 (-1) = .error .runtimeError :=
  ⟨by decide, param_no_validation.1 (-2) (-3) 1025 (by decide),
   by decide, param_no_validation.2.1 1 512 (-1) (by decide)⟩

/-- C6: the claim says both masking operations fail with InvalidAxis on every
axis other than 2 and 3.  Counterexample: `mask_along_axis_batch` on a 4-D
tensor with `axis = 4` fails with the dimension-out-of-range IndexError of
`spect.size(axis)` — which is evaluated before the axis dispatch — not with
InvalidAxis. -/
theorem masking_axis_errors_cx :
    mask_along_axis_batch tensorOnes 1 0 4 0 0 = .error .dimOutOfRange
  ∧ mask_along_axis_batch tensorOnes 1 0 4 0 0 ≠ .error .invalidAxis := by
  have h1 : mask_along_axis_batch tensorOnes 1 0 4 0 0 = .error .dimOutOfRange := rfl
  exact ⟨h1, fun h => by rw [h1] at h; exact absurd (Except.error.inj h) (by decide)⟩

/-- C6 (amended): `mask_along_axis` fails with InvalidAxis on every axis other
than 2 and 3 and raises no error on 2 and 3; `mask_along_axis_batch` fails
with InvalidAxis on every axis in `[-4, 3]` other than 2 and 3, fails with the
dimension-out-of-range IndexError of `size` on every axis outside `[-4, 3]`,
and raises no error on 2 and 3. -/
theorem masking_axis_errors :
    (∀ (spect : Tensor4) (M mv : ℚ) (axis : ℤ) (u1 u2 : ℕ → ℕ → ℚ),
        axis ≠ 2 → axis ≠ 3 →
        mask_along_axis spect M mv axis u1 u2 = .error .invalidAxis)
  ∧ (∀ (spect : Tensor4) (M mv : ℚ) (axis : ℤ) (u1 u2 : ℕ → ℕ → ℚ),
        axis = 2 ∨ axis = 3 → isOk (mask_along_axis spect M mv axis u1 u2) = true)
  ∧ (∀ (spect : Tensor4) (M mv : ℚ) (axis : ℤ) (u1 u2 : ℚ),
        -4 ≤ axis → axis < 4 → axis ≠ 2 → axis ≠ 3 →
        mask_along_axis_batch spect M mv axis u1 u2 = .error .invalidAxis)
  ∧ (∀ (spect : Tensor4) (M mv : ℚ) (axis : ℤ) (u1 u2 : ℚ),
        ¬(-4 ≤ axis ∧ axis < 4) →
        mask_along_axis_batch spect M mv axis u1 u2 = .error .dimOutOfRange)
  ∧ (∀ (spect : Tensor4) (M mv : ℚ) (axis : ℤ) (u1 u2 : ℚ),
        axis = 2 ∨ axis = 3 →
        isOk (mask_along_axis_batch spect M mv axis u1 u2) = true) := by
  refine ⟨?_, ?_, ?_, ?_, ?_⟩
  · intro spect M mv axis u1 u2 h2 h3
    simp [mask_along_axis, h2, h3]
  · rintro spect M mv axis u1 u2 (rfl | rfl) <;> simp [mask_along_axis, isOk]
  · intro spect M mv axis u1 u2 h1 h2 h3 h4
    simp [mask_along_axis_batch, Tensor4.size, h1, h2, h3, h4]
  · intro spect M mv axis u1 u2 h
    simp [mask_along_axis_batch, Tensor4.size, h]
  · rintro spect M mv axis u1 u2 (rfl | rfl) <;>
      simp [batch_two, batch_three, isOk]

/-- Witness for C6 (amended) at concrete axes. -/
theorem masking_axis_errors_w :
    ((5 : ℤ) ≠ 2 ∧ (5 : ℤ) ≠ 3
      ∧ mask_along_axis tensorOnes 1 0 5 (fun _ _ => 0) (fun _ _ => 0) = .error .invalidAxis)
  ∧ ((0 : ℤ) ≠ 2
      ∧ mask_along_axis_batch tensorOnes 1 0 0 0 0 = .error .invalidAxis)
  ∧ isOk (mask_along_axis tensorOnes 1 0 2 (fun _ _ => 0) (fun _ _ => 0)) = true
  ∧ isOk (mask_along_axis_batch tensorOnes 1 0 3 0 0) = true :=
  ⟨⟨by decide, by decide,
      masking_axis_errors.1 tensorOnes 1 0 5 _ _ (by decide) (by decide)⟩,
   ⟨by decide,
      masking_axis_errors.2.2.1 tensorOnes 1 0 0 0 0 (by decide) (by decide)
        (by decide) (by decide)⟩,
   masking_axis_errors.2.1 tensorOnes 1 0 2 _ _ (Or.inl rfl),
   masking_axis_errors.2.2.2.2 tensorOnes 1 0 3 0 0 (Or.inr rfl)⟩

/-- C8: `AdditiveNoise.forward` is a pure transform: it keeps all four
extents of the input and every entry of the result equals the corresponding
input entry plus the drawn Gaussian noise `normal(0, scale)` (with the
per-call scale when given, the stored default otherwise); the input tensor is
taken immutably and never written. -/
theorem add_noise_returns_sum (st : NoiseState) (spect : Tensor4)
    (scale : Option (ℕ → ℕ → ℕ → ℕ → ℚ)) (z : ℕ → ℕ → ℕ → ℕ → ℚ) :
    (AdditiveNoise.forward st spect scale z).B = spect.B
  ∧ (AdditiveNoise.forward st spect scale z).C = spect.C
  ∧ (AdditiveNoise.forward st spect scale z).F = spect.F
  ∧ (AdditiveNoise.forward st spect scale z).T = spect.T
  ∧ ∀ b c f t, (AdditiveNoise.forward st spect scale z).data b c f t
      = spect.data b c f t
        + normalSample 0 ((scale.getD st.scale) b c f t) (z b c f t) :=
  ⟨rfl, rfl, rfl, rfl, fun _ _ _ _ => rfl⟩

/-- C9: noise injection with scale 0 returns the input values unchanged —
whether 0 is passed as the per-call scale or stored as the module default —
because the zero-scale normal draw `0 + 0 * z` contributes nothing. -/
theorem add_noise_zero_scale_identity :
    (∀ (st : NoiseState) (spect : Tensor4) (z : ℕ → ℕ → ℕ → ℕ → ℚ) (b c f t : ℕ),
        (AdditiveNoise.forward st spect (some (fun _ _ _ _ => 0)) z).data b c f t
          = spect.data b c f t)
  ∧ (∀ (st : NoiseState) (spect : Tensor4) (z : ℕ → ℕ → ℕ → ℕ → ℚ),
        st.scale = (fun _ _ _ _ => 0) →
        ∀ b c f t, (AdditiveNoise.forward st spect none z).data b c f t
          = spect.data b c f t) := by
  constructor
  · intro st spect z b c f t
    simp [AdditiveNoise.forward, normalSample]
  · intro st spect z h b c f t
    simp [AdditiveNoise.forward, normalSample, h]

/-- Witness for C9: a zero-scale module leaves a concrete entry unchanged. -/
theorem add_noise_zero_scale_identity_w :
    (AdditiveNoise.forward ⟨fun _ _ _ _ => 0⟩ tensorOnes none
      (fun _ _ _ _ => 5)).data 0 0 0 0 = tensorOnes.data 0 0 0 0 :=
  add_noise_zero_scale_identity.2 ⟨fun _ _ _ _ => 0⟩ tensorOnes
    (fun _ _ _ _ => 5) rfl 0 0 0 0

/-- C10: every call through the public `FrequencyMasking` and `TimeMasking`
modules passes the fixed axis 2 (respectively 3) to the selected masking
function, so the call returns normally and the InvalidAxis branch is
unreachable through these interfaces — for either setting of
`across_batch`. -/
theorem freq_time_modules_never_invalid_axis (maxv mv : ℚ) (across : Bool)
    (spect : Tensor4) (u1 u2 : ℕ → ℕ → ℚ) (v1 v2 : ℚ) :
    (isOk (AxisMasking.forward (FrequencyMasking.init maxv across) spect mv u1 u2 v1 v2) = true
      ∧ AxisMasking.forward (FrequencyMasking.init maxv across) spect mv u1 u2 v1 v2
          ≠ .error .invalidAxis)
  ∧ (isOk (AxisMasking.forward (TimeMasking.init maxv across) spect mv u1 u2 v1 v2) = true
      ∧ AxisMasking.forward (TimeMasking.init maxv across) spect mv u1 u2 v1 v2
          ≠ .error .invalidAxis) := by
  have hf : isOk (AxisMasking.forward (FrequencyMasking.init maxv across) spect mv u1 u2 v1 v2) = true := by
    cases across <;>
      simp [AxisMasking.forward, FrequencyMasking.init, AxisMasking.init,
        mask_along_axis, batch_two, isOk]
  have ht : isOk (AxisMasking.forward (TimeMasking.init maxv across) spect mv u1 u2 v1 v2) = true := by
    cases across <;>
      simp [AxisMasking.forward, TimeMasking.init, AxisMasking.init,
        mask_along_axis, batch_three, isOk]
  exact ⟨⟨hf, ne_error_of_isOk hf _⟩, ⟨ht, ne_error_of_isOk ht _⟩⟩

lemma linspace_length (a b : ℝ) (steps : ℕ) : (linspace a b steps).length = steps := by
  simp [linspace]

lemma linspace_getD (a b : ℝ) {steps k : ℕ} (hk : k < steps) :
    (linspace a b steps).getD k 0 =
      if steps = 1 then a else a + (k : ℝ) * (b - a) / ((steps : ℝ) - 1) := by
  have hl : k < ((List.range steps).map (fun (j : ℕ) =>
      if steps = 1 then a else a + (j : ℝ) * (b - a) / ((steps : ℝ) - 1))).length := by
    simpa using hk
  rw [linspace, List.getD_eq_getElem _ _ hl, List.getElem_map, List.getElem_range]

/-- C2: for positive `hop_len` and `num_bins ≥ 2`, the phase-advance table
has length `num_bins` and its value at bin `k` is
`k * pi * hop_len / (num_bins - 1)` (linearly spaced from 0 to
`pi * hop_len`); in particular `num_bins = 4, hop_len = 2` yields
`[0, 2 pi / 3, 4 pi / 3, 2 pi]`. -/
theorem phase_advance_table_spec :
    (∀ (hop : ℤ) (num : ℕ), (stretchPhiTable hop num).length = num)
  ∧ (∀ (hop : ℤ) (num k : ℕ), 0 < hop → 2 ≤ num → k < num →
      (stretchPhiTable hop num).getD k 0
        = (k : ℝ) * Real.pi * (hop : ℝ) / ((num : ℝ) - 1))
  ∧ stretchPhiTable 2 4 = [0, 2 * Real.pi / 3, 4 * Real.pi / 3, 2 * Real.pi] := by
  refine ⟨fun hop num => linspace_length _ _ _, ?_, ?_⟩
  · intro hop num k hhop hnum hk
    rw [stretchPhiTable, linspace_getD _ _ hk, if_neg (by omega)]
    ring
  · norm_num [stretchPhiTable, linspace, List.range_succ]
    refine ⟨by ring, by ring, by ring⟩

/-- Witness for C2 at `hop_len = 2`, `num_bins = 4`, bin `k = 1`. -/
theorem phase_advance_table_spec_w :
    (0 : ℤ) < 2 ∧ 2 ≤ 4 ∧ 1 < 4
  ∧ (stretchPhiTable 2 4).getD 1 0
      = ((1 : ℕ) : ℝ) * Real.pi * ((2 : ℤ) : ℝ) / (((4 : ℕ) : ℝ) - 1) :=
  ⟨by decide, by decide, by decide,
    phase_advance_table_spec.2.1 2 4 1 (by decide) (by decide) (by decide)⟩

/-- C3: the claim says that for every `max_value M` the masked span satisfies
`start + span ≤ L`.  Counterexample with `M = 20` on an axis of length
`L = 10` (the frequency axis of a 1 × 1 × 10 × 10 spectrogram): with uniform
draws `u1 = 3/4`, `u2 = 1/2` the code computes `value = 15`,
`min_value = (1/2) * (10 - 15) = -5/2`, hence `span = 15 ∈ [0, 20)` but
`start = -2` (truncation toward zero) and `start + span = 13 > 10`. -/
theorem masking_span_bounds_cx :
    axisLenQ tensorOnes 2 = 10
  ∧ maskSpan (3/4) 20 = 15
  ∧ maskStart (1/2) 10 (3/4) 20 = -2
  ∧ ¬(((maskStart (1/2) 10 (3/4) 20 + maskSpan (3/4) 20 : ℤ) : ℚ) ≤ 10) := by
  have h1 : maskSpan (3/4) 20 = 15 := by
    norm_num [maskSpan, maskValue, truncLong]
  have h2 : maskStart (1/2) 10 (3/4) 20 = -2 := by
    rw [maskStart, maskMinValue, maskValue, truncLong,
      if_neg (by norm_num), show ((1:ℚ)/2 * (10 - 3/4*20)) = -(5/2) by norm_num,
      Int.ceil_neg]
    norm_num
  refine ⟨by norm_num [axisLenQ, tensorOnes], h1, h2, ?_⟩
  rw [h1, h2]
  norm_num

/-- C3 (amended): the span/start bounds hold provided `0 < M ≤ L`.  For every
(batch, channel) pair, `mask_along_axis` with `max_value = M` on an axis of
length `L ≥ M` computes an integer span in `[0, M)` and a start with
`0 ≤ start` and `start + span ≤ L`; when `M` exceeds `L` the start can be
negative and `start + span` can exceed `L` (see the counterexample). -/
theorem masking_span_bounds (spect : Tensor4) (M mv : ℚ) (axis : ℤ)
    (u1 u2 : ℕ → ℕ → ℚ) (hax : axis = 2 ∨ axis = 3)
    (hu : ∀ b c, 0 ≤ u1 b c ∧ u1 b c < 1 ∧ 0 ≤ u2 b c ∧ u2 b c < 1)
    (hM : 0 < M) (hML : M ≤ axisLenQ spect axis) :
    ∀ b c, 0 ≤ maskSpan (u1 b c) M
      ∧ (maskSpan (u1 b c) M : ℚ) < M
      ∧ 0 ≤ maskStart (u2 b c) (axisLenQ spect axis) (u1 b c) M
      ∧ ((maskStart (u2 b c) (axisLenQ spect axis) (u1 b c) M
          + maskSpan (u1 b c) M : ℤ) : ℚ) ≤ axisLenQ spect axis := by
  intro b c
  obtain ⟨h1, h1', h2, h2'⟩ := hu b c
  set L := axisLenQ spect axis with hL
  have hv0 : 0 ≤ maskValue (u1 b c) M := mul_nonneg h1 (le_of_lt hM)
  have hvM : maskValue (u1 b c) M < M := mul_lt_of_lt_one_left hM h1'
  have hvL : maskValue (u1 b c) M < L := lt_of_lt_of_le hvM hML
  have hw0 : 0 ≤ maskMinValue (u2 b c) L (maskValue (u1 b c) M) :=
    mul_nonneg h2 (by linarith)
  have hwlt : maskMinValue (u2 b c) L (maskValue (u1 b c) M)
      < L - maskValue (u1 b c) M :=
    mul_lt_of_lt_one_left (by linarith) h2'
  have hs : (truncLong (maskMinValue (u2 b c) L (maskValue (u1 b c) M)) : ℚ)
      ≤ maskMinValue (u2 b c) L (maskValue (u1 b c) M) := truncLong_le hw0
  have hsp : (truncLong (maskValue (u1 b c) M) : ℚ) ≤ maskValue (u1 b c) M :=
    truncLong_le hv0
  refine ⟨truncLong_nonneg hv0, lt_of_le_of_lt (truncLong_le hv0) hvM,
    truncLong_nonneg hw0, ?_⟩
  unfold maskStart maskSpan
  push_cast
  linarith

/-- Witness for C3 (amended): a 1 × 1 × 10 × 10 spectrogram, frequency axis,
`M = 4`, both uniform draws `1/2`. -/
theorem masking_span_bounds_w :
    ((2 : ℤ) = 2 ∨ (2 : ℤ) = 3)
  ∧ (0 : ℚ) < 4 ∧ (4 : ℚ) ≤ axisLenQ tensorOnes 2
  ∧ (0 ≤ maskSpan ((1 : ℚ)/2) 4
      ∧ (maskSpan ((1 : ℚ)/2) 4 : ℚ) < 4
      ∧ 0 ≤ maskStart ((1 : ℚ)/2) (axisLenQ tensorOnes 2) ((1 : ℚ)/2) 4
      ∧ ((maskStart ((1 : ℚ)/2) (axisLenQ tensorOnes 2) ((1 : ℚ)/2) 4
          + maskSpan ((1 : ℚ)/2) 4 : ℤ) : ℚ) ≤ axisLenQ tensorOnes 2) :=
  ⟨Or.inl rfl, by norm_num, by norm_num [axisLenQ, tensorOnes],
    masking_span_bounds tensorOnes 4 0 2 (fun _ _ => 1/2) (fun _ _ => 1/2)
      (Or.inl rfl) (fun _ _ => by norm_num) (by norm_num)
      (by norm_num [axisLenQ, tensorOnes]) 0 0⟩

/-- C4: with `shared_across_batch = true` (`mask_along_axis_batch`), a single
span and start are drawn per call and applied identically to every batch and
channel: every in-range entry equals `mask_value` exactly when its index along
the chosen axis lies in the one shared slice region — a condition independent
of the (batch, channel) pair — and consequently an entry modified for one
(batch, channel) pair is overwritten with `mask_value` at the same position
for every other pair. -/
theorem mask_batch_shared_region (spect : Tensor4) (M mv : ℚ) (u1 u2 : ℚ) :
    (∀ out, mask_along_axis_batch spect M mv 2 u1 u2 = .ok out →
      ∀ (b c f t : ℕ), b < spect.B → c < spect.C → t < spect.T →
        ((inSliceRegion spect.F (maskStart u2 (spect.F : ℚ) u1 M)
              (maskStart u2 (spect.F : ℚ) u1 M + maskSpan u1 M) (f : ℤ)
            → out.data b c f t = mv)
          ∧ (¬inSliceRegion spect.F (maskStart u2 (spect.F : ℚ) u1 M)
              (maskStart u2 (spect.F : ℚ) u1 M + maskSpan u1 M) (f : ℤ)
            → out.data b c f t = spect.data b c f t)
          ∧ ∀ b' c', b' < spect.B → c' < spect.C →
              (out.data b c f t ≠ spect.data b c f t → out.data b' c' f t = mv)))
  ∧ (∀ out, mask_along_axis_batch spect M mv 3 u1 u2 = .ok out →
      ∀ (b c f t : ℕ), b < spect.B → c < spect.C → f < spect.F →
        ((inSliceRegion spect.T (maskStart u2 (spect.T : ℚ) u1 M)
              (maskStart u2 (spect.T : ℚ) u1 M + maskSpan u1 M) (t : ℤ)
            → out.data b c f t = mv)
          ∧ (¬inSliceRegion spect.T (maskStart u2 (spect.T : ℚ) u1 M)
              (maskStart u2 (spect.T : ℚ) u1 M + maskSpan u1 M) (t : ℤ)
            → out.data b c f t = spect.data b c f t)
          ∧ ∀ b' c', b' < spect.B → c' < spect.C →
              (out.data b c f t ≠ spect.data b c f t → out.data b' c' f t = mv))) := by
  constructor
  · intro out hout b c f t hb hc ht
    rw [batch_two] at hout
    obtain rfl := (Except.ok.inj hout).symm
    refine ⟨fun hr => by simp [sliceFill2, hb, hc, ht, hr],
      fun hr => by simp [sliceFill2, hr], ?_⟩
    intro b' c' hb' hc' hne
    by_cases hr : inSliceRegion spect.F (maskStart u2 (spect.F : ℚ) u1 M)
        (maskStart u2 (spect.F : ℚ) u1 M + maskSpan u1 M) (f : ℤ)
    · simp [sliceFill2, hb', hc', ht, hr]
    · exact absurd (by simp [sliceFill2, hr]) hne
  · intro out hout b c f t hb hc hf
    rw [batch_three] at hout
    obtain rfl := (Except.ok.inj hout).symm
    refine ⟨fun hr => by simp [sliceFill3, hb, hc, hf, hr],
      fun hr => by simp [sliceFill3, hr], ?_⟩
    intro b' c' hb' hc' hne
    by_cases hr : inSliceRegion spect.T (maskStart u2 (spect.T : ℚ) u1 M)
        (maskStart u2 (spect.T : ℚ) u1 M + maskSpan u1 M) (t : ℤ)
    · simp [sliceFill3, hb', hc', hf, hr]
    · exact absurd (by simp [sliceFill3, hr]) hne

/-- Witness for C4: 2 × 1 × 4 × 4 spectrogram of fives, frequency axis,
`M = 2`, draws `1/2`: the drawn slice is `1:2`, and frequency row 1 is
zeroed in both batch entries. -/
theorem mask_batch_shared_region_w :
    mask_along_axis_batch tensorFives 2 0 2 (1/2) (1/2)
      = .ok (sliceFill2 tensorFives (maskStart (1/2) (tensorFives.F : ℚ) (1/2) 2)
          (maskStart (1/2) (tensorFives.F : ℚ) (1/2) 2 + maskSpan (1/2) 2) 0)
  ∧ (sliceFill2 tensorFives (maskStart (1/2) (tensorFives.F : ℚ) (1/2) 2)
      (maskStart (1/2) (tensorFives.F : ℚ) (1/2) 2 + maskSpan (1/2) 2) 0).data 0 0 1 0 = 0
  ∧ (sliceFill2 tensorFives (maskStart (1/2) (tensorFives.F : ℚ) (1/2) 2)
      (maskStart (1/2) (tensorFives.F : ℚ) (1/2) 2 + maskSpan (1/2) 2) 0).data 1 0 1 0 = 0 := by
  have hout := batch_two tensorFives 2 0 (1/2) (1/2)
  have hregion : inSliceRegion tensorFives.F (maskStart (1/2) (tensorFives.F : ℚ) (1/2) 2)
      (maskStart (1/2) (tensorFives.F : ℚ) (1/2) 2 + maskSpan (1/2) 2) ((1 : ℕ) : ℤ) := by
    have h1 : maskStart (1/2) (tensorFives.F : ℚ) (1/2) 2 = 1 := by
      norm_num [maskStart, maskMinValue, maskValue, truncLong, tensorFives]
    have h2 : maskSpan ((1 : ℚ)/2) 2 = 1 := by
      norm_num [maskSpan, maskValue, truncLong]
    rw [inSliceRegion, h1, h2]
    norm_num [sliceIdx, tensorFives]
  refine ⟨hout, ?_, ?_⟩
  · exact ((mask_batch_shared_region tensorFives 2 0 (1/2) (1/2)).1 _ hout
      0 0 1 0 (by norm_num [tensorFives]) (by norm_num [tensorFives])
      (by norm_num [tensorFives])).1 hregion
  · exact ((mask_batch_shared_region tensorFives 2 0 (1/2) (1/2)).1 _ hout
      1 0 1 0 (by norm_num [tensorFives]) (by norm_num [tensorFives])
      (by norm_num [tensorFives])).1 hregion

lemma core_data_two (spect : Tensor4) (M mv : ℚ) (u1 u2 : ℕ → ℕ → ℚ) (b c f t : ℕ) :
    (maskAlongAxisCore spect M mv 2 u1 u2).data b c f t =
      if b < spect.B ∧ c < spect.C ∧ f < spect.F ∧ t < spect.T
          ∧ maskStart (u2 b c) (axisLenQ spect 2) (u1 b c) M ≤ (f : ℤ)
          ∧ (f : ℤ) < maskStart (u2 b c) (axisLenQ spect 2) (u1 b c) M + maskSpan (u1 b c) M
      then mv else spect.data b c f t := by
  norm_num [maskAlongAxisCore, transposeTo2, maskedFill]

lemma core_data_three (spect : Tensor4) (M mv : ℚ) (u1 u2 : ℕ → ℕ → ℚ) (b c f t : ℕ) :
    (maskAlongAxisCore spect M mv 3 u1 u2).data b c f t =
      if b < spect.B ∧ c < spect.C ∧ t < spect.T ∧ f < spect.F
          ∧ maskStart (u2 b c) (axisLenQ spect 3) (u1 b c) M ≤ (t : ℤ)
          ∧ (t : ℤ) < maskStart (u2 b c) (axisLenQ spect 3) (u1 b c) M + maskSpan (u1 b c) M
      then mv else spect.data b c f t := by
  norm_num [maskAlongAxisCore, transposeTo2, Tensor4.transpose23, maskedFill]

lemma inSliceRegion_sub {L : ℕ} {a b i : ℤ} (hb : 0 ≤ b) (h : inSliceRegion L a b i) :
    a ≤ i ∧ i < b := by
  obtain ⟨h1, h2⟩ := h
  unfold sliceIdx at h1 h2
  rw [if_neg (not_lt.mpr hb)] at h2
  by_cases ha : a < 0
  · rw [if_pos ha] at h1
    exact ⟨by omega, by omega⟩
  · rw [if_neg ha] at h1
    exact ⟨by omega, by omega⟩

lemma batch_end_nonneg {u1 u2 M L : ℚ} (h1 : 0 ≤ u1) (h1' : u1 < 1) (h2 : 0 ≤ u2)
    (h2' : u2 < 1) (hM : 0 ≤ M) (hL : 0 ≤ L) :
    0 ≤ maskStart u2 L u1 M + maskSpan u1 M := by
  have hv0 : 0 ≤ maskValue u1 M := mul_nonneg h1 hM
  rcases le_or_lt 0 (maskMinValue u2 L (maskValue u1 M)) with hw | hw
  · have ha := truncLong_nonneg hw
    have hb := truncLong_nonneg hv0
    unfold maskStart maskSpan
    omega
  · have hLv : L - maskValue u1 M < 0 := by
      by_contra hcon
      push_neg at hcon
      exact absurd (mul_nonneg h2 hcon) (not_le.mpr hw)
    have hmono : L - maskValue u1 M ≤ maskMinValue u2 L (maskValue u1 M) := by
      have := mul_le_mul_of_nonpos_right (le_of_lt h2') (le_of_lt hLv)
      simpa [maskMinValue] using this
    have hsq : maskMinValue u2 L (maskValue u1 M) ≤ (maskStart u2 L u1 M : ℚ) := by
      unfold maskStart truncLong
      rw [if_neg (not_le.mpr hw)]
      exact Int.le_ceil _
    have hsp : maskValue u1 M - 1 < (maskSpan u1 M : ℚ) := truncLong_lt
    have hgt : (-1 : ℚ) < ((maskStart u2 L u1 M + maskSpan u1 M : ℤ) : ℚ) := by
      push_cast
      linarith
    have hz : (-1 : ℤ) < maskStart u2 L u1 M + maskSpan u1 M := by exact_mod_cast hgt
    omega

/-- C7: each masking operation only overwrites entries whose index along the
chosen axis lies in the computed half-open interval `[start, start + span)`
for the corresponding (batch, channel) pair; every entry outside that region
keeps its original value.  For the shared (batch) variant the interval is the
single drawn one, and the draw bounds (`torch.rand ∈ [0, 1)`, `max_value ≥ 0`)
guarantee the Python slice it is fed to never reaches outside `[start,
start + span)`.  (The operations mutate the tensor in place in the source; the
embedding states the same frame condition on the returned tensor.) -/
theorem masking_frame_condition :
    (∀ (spect : Tensor4) (M mv : ℚ) (axis : ℤ) (u1 u2 : ℕ → ℕ → ℚ) (out : Tensor4),
        mask_along_axis spect M mv axis u1 u2 = .ok out →
        ∀ (b c f t : ℕ),
          ¬(maskStart (u2 b c) (axisLenQ spect axis) (u1 b c) M
              ≤ (if axis = 2 then (f : ℤ) else (t : ℤ))
            ∧ (if axis = 2 then (f : ℤ) else (t : ℤ))
              < maskStart (u2 b c) (axisLenQ spect axis) (u1 b c) M + maskSpan (u1 b c) M) →
          out.data b c f t = spect.data b c f t)
  ∧ (∀ (spect : Tensor4) (M mv : ℚ) (axis : ℤ) (u1 u2 : ℚ) (out : Tensor4),
        0 ≤ u1 → u1 < 1 → 0 ≤ u2 → u2 < 1 → 0 ≤ M →
        mask_along_axis_batch spect M mv axis u1 u2 = .ok out →
        ∀ (b c f t : ℕ),
          ¬(maskStart u2 (axisLenQ spect axis) u1 M
              ≤ (if axis = 2 then (f : ℤ) else (t : ℤ))
            ∧ (if axis = 2 then (f : ℤ) else (t : ℤ))
              < maskStart u2 (axisLenQ spect axis) u1 M + maskSpan u1 M) →
          out.data b c f t = spect.data b c f t) := by
  constructor
  · intro spect M mv axis u1 u2 out hout b c f t hreg
    by_cases hax : axis = 2 ∨ axis = 3
    · rcases hax with rfl | rfl
      · rw [mask_along_axis, if_pos (Or.inl rfl)] at hout
        obtain rfl := (Except.ok.inj hout).symm
        norm_num at hreg
        rw [core_data_two,
          if_neg (fun hcond => absurd (hreg hcond.2.2.2.2.1) (not_le.mpr hcond.2.2.2.2.2))]
      · rw [mask_along_axis, if_pos (Or.inr rfl)] at hout
        obtain rfl := (Except.ok.inj hout).symm
        norm_num at hreg
        rw [core_data_three,
          if_neg (fun hcond => absurd (hreg hcond.2.2.2.2.1) (not_le.mpr hcond.2.2.2.2.2))]
    · rw [mask_along_axis, if_neg hax] at hout
      exact absurd hout (by simp)
  · intro spect M mv axis u1 u2 out h1 h1' h2 h2' hM hout b c f t hreg
    by_cases ha2 : axis = 2
    · subst ha2
      rw [batch_two] at hout
      obtain rfl := (Except.ok.inj hout).symm
      have hA : axisLenQ spect 2 = (spect.F : ℚ) := by norm_num [axisLenQ]
      rw [hA] at hreg
      norm_num at hreg
      have hE : 0 ≤ maskStart u2 (spect.F : ℚ) u1 M + maskSpan u1 M :=
        batch_end_nonneg h1 h1' h2 h2' hM (by positivity)
      have hnr : ¬inSliceRegion spect.F (maskStart u2 (spect.F : ℚ) u1 M)
          (maskStart u2 (spect.F : ℚ) u1 M + maskSpan u1 M) (f : ℤ) := by
        intro hin
        obtain ⟨hl, hr⟩ := inSliceRegion_sub hE hin
        exact absurd (hreg hl) (not_le.mpr hr)
      simp [sliceFill2, hnr]
    · by_cases ha3 : axis = 3
      · subst ha3
        rw [batch_three] at hout
        obtain rfl := (Except.ok.inj hout).symm
        have hA : axisLenQ spect 3 = (spect.T : ℚ) := by norm_num [axisLenQ]
        rw [hA] at hreg
        norm_num at hreg
        have hE : 0 ≤ maskStart u2 (spect.T : ℚ) u1 M + maskSpan u1 M :=
          batch_end_nonneg h1 h1' h2 h2' hM (by positivity)
        have hnr : ¬inSliceRegion spect.T (maskStart u2 (spect.T : ℚ) u1 M)
            (maskStart u2 (spect.T : ℚ) u1 M + maskSpan u1 M) (t : ℤ) := by
          intro hin
          obtain ⟨hl, hr⟩ := inSliceRegion_sub hE hin
          exact absurd (hreg hl) (not_le.mpr hr)
        simp [sliceFill3, hnr]
      · rw [mask_along_axis_batch] at hout
        rcases hs : spect.size axis with e | L
        · rw [hs] at hout
          exact absurd hout (by simp)
        · rw [hs] at hout
          simp only [if_neg ha2, if_neg ha3] at hout
          exact absurd hout (by simp)

/-- Witness for C7: entries outside the drawn regions are untouched, for a
per-example call (frequency axis, `M = 0`) and a shared call (time axis,
`M = 1`, zero draws) on the all-ones spectrogram. -/
theorem masking_frame_condition_w :
    (maskAlongAxisCore tensorOnes 0 7 2 (fun _ _ => 0) (fun _ _ => 0)).data 0 0 0 1
      = tensorOnes.data 0 0 0 1
  ∧ (sliceFill3 tensorOnes (maskStart 0 (tensorOnes.T : ℚ) 0 1)
      (maskStart 0 (tensorOnes.T : ℚ) 0 1 + maskSpan 0 1) 7).data 0 0 0 2
      = tensorOnes.data 0 0 0 2 :=
  ⟨masking_frame_condition.1 tensorOnes 0 7 2 (fun _ _ => 0) (fun _ _ => 0) _ rfl
      0 0 0 1 (by norm_num [maskStart, maskSpan, maskValue, maskMinValue, truncLong,
        axisLenQ, tensorOnes]),
   masking_frame_condition.2 tensorOnes 1 7 3 0 0 _ (by norm_num) (by norm_num)
      (by norm_num) (by norm_num) (by norm_num) (batch_three tensorOnes 1 7 0 0)
      0 0 0 2 (by norm_num [maskStart, maskSpan, maskValue, maskMinValue, truncLong,
        axisLenQ, tensorOnes])⟩

lemma pvLo_one (i : ℕ) : pvLo 1 i = i := by
  simp [pvLo, pvTimePos]

lemma pvAlpha_one (i : ℕ) : pvAlpha 1 i = 0 := by
  simp [pvAlpha, pvTimePos]

lemma pvMag_one {X : ℕ → ℂ} {T i : ℕ} (hi : i < T) :
    pvMag X T 1 i = Complex.abs (X i) := by
  simp [pvMag, pvAlpha_one, pvLo_one, xpad, hi]

lemma wrapPhase_int (x : ℝ) : ∃ m : ℤ, wrapPhase x = x - 2 * Real.pi * m :=
  ⟨⌈x / (2 * Real.pi) - 1 / 2⌉, rfl⟩

lemma pvPhase_one_mod (X : ℕ → ℂ) (T : ℕ) (adv : ℝ) :
    ∀ i, i < T → ∃ k : ℤ, pvPhase X T 1 adv i = (X i).arg + 2 * Real.pi * k := by
  intro i
  induction i with
  | zero =>
      intro h0
      exact ⟨0, by simp [pvPhase, xpad, h0]⟩
  | succ n ih =>
      intro h
      have hn : n < T := Nat.lt_of_succ_lt h
      obtain ⟨k, hk⟩ := ih hn
      obtain ⟨m, hm⟩ := wrapPhase_int
        ((xpad X T (pvLo 1 n + 1)).arg - (xpad X T (pvLo 1 n)).arg - adv)
      refine ⟨k - m, ?_⟩
      have hx1 : xpad X T (pvLo 1 n + 1) = X (n + 1) := by
        rw [pvLo_one]
        simp [xpad, h]
      have hx0 : xpad X T (pvLo 1 n) = X n := by
        rw [pvLo_one]
        simp [xpad, hn]
      show pvPhase X T 1 adv n + pvStep X T 1 adv n = _
      rw [hk]
      unfold pvStep
      rw [hm, hx1, hx0]
      push_cast
      ring

lemma outLen_one (T : ℕ) : outLen 1 T = T := by
  simp [outLen]

lemma pvOut_one (X : ℕ → ℂ) (T : ℕ) (adv : ℝ) (i : ℕ) (hi : i < T) :
    pvOut X T 1 adv i = X i := by
  obtain ⟨k, hk⟩ := pvPhase_one_mod X T adv i hi
  unfold pvOut
  rw [pvMag_one hi, hk]
  have hsplit : (((X i).arg + 2 * Real.pi * (k : ℝ) : ℝ) : ℂ) * Complex.I
      = ((X i).arg : ℂ) * Complex.I + (k : ℂ) * (2 * (Real.pi : ℂ) * Complex.I) := by
    push_cast
    ring
  rw [hsplit, Complex.exp_add, Complex.exp_int_mul_two_pi_mul_I, mul_one]
  exact Complex.abs_mul_exp_arg_mul_I (X i)

/-- C1: calling the stretch operator with `rate = 1.0` — whether as the
per-call rate or as the stored default — returns the input spectrogram
unchanged: the output has the same extents (`ceil(T / 1) = T` frames) and
every entry inside the time extent equals the corresponding input entry
exactly.  At rate 1 each output frame sits on an input frame (`alpha = 0`), so
the interpolated magnitude is the input magnitude, and the accumulated phase
telescopes to the input frame's phase up to a multiple of `2 * pi`, which the
complex exponential cancels — for any phase-advance table. -/
theorem stretch_rate_one_identity (s : StretchState) (X : CSpect4) (hs : s.rate = 1) :
    (StretchSpecTime.forward s X none).B = X.B
  ∧ (StretchSpecTime.forward s X none).C = X.C
  ∧ (StretchSpecTime.forward s X none).F = X.F
  ∧ (StretchSpecTime.forward s X none).T = X.T
  ∧ (StretchSpecTime.forward s X (some 1)).T = X.T
  ∧ ∀ (b c f i : ℕ), i < X.T →
      (StretchSpecTime.forward s X none).data b c f i = X.data b c f i
      ∧ (StretchSpecTime.forward s X (some 1)).data b c f i = X.data b c f i := by
  have h1 : StretchSpecTime.forward s X none = phase_vocoder X 1 s.phi_advance := by
    unfold StretchSpecTime.forward
    rw [Option.getD_none, hs]
  have h2 : StretchSpecTime.forward s X (some 1) = phase_vocoder X 1 s.phi_advance := by
    unfold StretchSpecTime.forward
    rw [Option.getD_some]
  rw [h1, h2]
  refine ⟨rfl, rfl, rfl, outLen_one X.T, outLen_one X.T, ?_⟩
  intro b c f i hi
  exact ⟨pvOut_one _ X.T _ i hi, pvOut_one _ X.T _ i hi⟩

/-- A 1 × 1 × 1 × 3 complex spectrogram with every entry 1. -/
def cOnes : CSpect4 := ⟨1, 1, 1, 3, fun _ _ _ _ => 1⟩

/-- Witness for C1: a stretch module with default rate 1 (and the default
512/1025 phase-advance table) maps a concrete entry of a concrete spectrogram
to itself. -/
theorem stretch_rate_one_identity_w :
    (StretchState.rate ⟨1, stretchPhiTable 512 1025⟩ = 1)
  ∧ (StretchSpecTime.forward ⟨1, stretchPhiTable 512 1025⟩ cOnes none).data 0 0 0 2
      = cOnes.data 0 0 0 2 :=
  ⟨rfl, ((stretch_rate_one_identity ⟨1, stretchPhiTable 512 1025⟩ cOnes rfl).2.2.2.2.2
      0 0 0 2 (by decide)).1⟩

end TorchaudioContrib
